import Mathlib

/-!
Verification of the wiretap packet-capture library (src/src/lib.rs,
src/src/tcp_packet.rs, src/src/ipv4_packet.rs) against its natural-language
specification.

Shallow embedding conventions:
- `pnet` wrapper types store decoded header fields as plain values: ports are
  u16 and sequence/acknowledgment numbers u32 in the source, embedded as `Nat`
  (the source compares and adds them at `usize` width, which is exact for
  these ranges, so `Nat` arithmetic is faithful); payloads are byte lists.
- `create_clone` produces an independently-owned copy of the same bytes; on
  values it is the identity.
- Rust's `Vec::remove(idx)` panics when `idx` is out of bounds; loops that can
  hit that panic are embedded as `Option`-returning functions where `none`
  means the source aborts instead of returning.
- External capabilities (interface enumeration, the capture channel, the
  byte-level `pnet` parsers) are parameters of the embedding, following the
  spec's "opaque collaborator" scoping.
-/

/-- TCP segment: the fields of `pnet`'s `TcpPacket` that
`src/src/tcp_packet.rs` reads (`get_source`, `get_destination`,
`get_sequence`, `get_acknowledgement`, `payload`). -/
structure TcpSegment where
  source : Nat
  destination : Nat
  sequence : Nat
  acknowledgement : Nat
  payload : List Nat
deriving DecidableEq, Repr

instance : Inhabited TcpSegment := ⟨⟨0, 0, 0, 0, []⟩⟩

/-- `TcpSegment::create_clone` re-parses the same owned bytes: the identity on
decoded values. -/
def TcpSegment.create_clone (s : TcpSegment) : TcpSegment := s

/-- `TcpSegment::has_payload` (src/src/tcp_packet.rs line 26). -/
def TcpSegment.has_payload (s : TcpSegment) : Bool :=
  !(s.payload.isEmpty)

/-- `TcpSegment::is_answered_by` (src/src/tcp_packet.rs lines 34-39).
The sum `get_sequence() as usize + payload().len()` is exact 64-bit
arithmetic in the source, with no modulo 2^32 reduction. -/
def TcpSegment.is_answered_by (s other : TcpSegment) : Bool :=
  s.source == other.destination && s.destination == other.source &&
    (s.sequence + s.payload.length == other.acknowledgement)

/-- `TcpSegmentCollection::filter_no_payload` (src/src/tcp_packet.rs
lines 76-83): keep segments with a payload, as owned clones. -/
def filter_no_payload (segments : List TcpSegment) : List TcpSegment :=
  (segments.filter TcpSegment.has_payload).map TcpSegment.create_clone

/-- The inner candidate scan of `find_challenge_response_pairs`
(src/src/tcp_packet.rs lines 99-119): `j` starts at 0 and is incremented
before each probe while `j < unmatched.len() - 1` holds beforehand, so the
probed indices are exactly 1, 2, ..., len-1 in that order, and the first
index whose element answers the challenge is taken. -/
def innerScan (pool : List TcpSegment) (challenge : TcpSegment) : Option Nat :=
  (List.range' 1 (pool.length - 1)).find? (fun j => challenge.is_answered_by (pool.getD j default))

/-- The outer loop of `TcpSegmentCollection::find_challenge_response_pairs`
(src/src/tcp_packet.rs lines 96-123).  On a match at index `j` the source
removes the higher index first (`if j > i { remove j; remove i } else
{ remove i; remove j }`); each `Vec::remove` carries its own bounds check and
panics (here: `none`) when the index is out of range, which is reachable when
`j = i` (a self-answering challenge probed at its own index). -/
def crLoop (pool : List TcpSegment) (i : Nat) (matched : List (TcpSegment × TcpSegment)) :
    Option (List (TcpSegment × TcpSegment) × List TcpSegment) :=
  if hi : i < pool.length then
    match innerScan pool (pool.getD i default) with
    | none => crLoop pool (i + 1) matched
    | some j =>
      if hji : j > i then
        if hj2 : j < pool.length then
          if hi2 : i < (pool.eraseIdx j).length then
            crLoop ((pool.eraseIdx j).eraseIdx i) i
              (matched ++ [(pool.getD i default, pool.getD j default)])
          else none
        else none
      else
        if hi2 : i < pool.length then
          if hj2 : j < (pool.eraseIdx i).length then
            crLoop ((pool.eraseIdx i).eraseIdx j) i
              (matched ++ [(pool.getD i default, pool.getD j default)])
          else none
        else none
  else
    some (matched, pool)
termination_by pool.length - i
decreasing_by
  · omega
  · have e1 : (pool.eraseIdx j).length = pool.length - 1 := by
      rw [List.length_eraseIdx, if_pos hj2]
    have e2 : ((pool.eraseIdx j).eraseIdx i).length = (pool.eraseIdx j).length - 1 := by
      rw [List.length_eraseIdx, if_pos hi2]
    omega
  · have e1 : (pool.eraseIdx i).length = pool.length - 1 := by
      rw [List.length_eraseIdx, if_pos hi2]
    have e2 : ((pool.eraseIdx i).eraseIdx j).length = (pool.eraseIdx i).length - 1 := by
      rw [List.length_eraseIdx, if_pos hj2]
    omega

/-- `TcpSegmentCollection::find_challenge_response_pairs`
(src/src/tcp_packet.rs lines 88-128): the working pool starts as owned clones
of the input in input order; result is (matched pairs, leftover unmatched). -/
def find_challenge_response_pairs (segments : List TcpSegment) :
    Option (List (TcpSegment × TcpSegment) × List TcpSegment) :=
  crLoop (segments.map TcpSegment.create_clone) 0 []

/-- The superseded snapshot of the same loop in src/src/lib.rs lines 262-297:
identical except that after a match it always runs `unmatched.remove(i)`
first and `unmatched.remove(j)` second, regardless of which index is
larger. -/
def libCrLoop (pool : List TcpSegment) (i : Nat) (matched : List (TcpSegment × TcpSegment)) :
    Option (List (TcpSegment × TcpSegment) × List TcpSegment) :=
  if hi : i < pool.length then
    match innerScan pool (pool.getD i default) with
    | none => libCrLoop pool (i + 1) matched
    | some j =>
      if hi2 : i < pool.length then
        if hj2 : j < (pool.eraseIdx i).length then
          libCrLoop ((pool.eraseIdx i).eraseIdx j) i
            (matched ++ [(pool.getD i default, pool.getD j default)])
        else none
      else none
  else
    some (matched, pool)
termination_by pool.length - i
decreasing_by
  · omega
  · have e1 : (pool.eraseIdx i).length = pool.length - 1 := by
      rw [List.length_eraseIdx, if_pos hi2]
    have e2 : ((pool.eraseIdx i).eraseIdx j).length = (pool.eraseIdx i).length - 1 := by
      rw [List.length_eraseIdx, if_pos hj2]
    omega

/-- `find_challenge_response_pairs` as defined in src/src/lib.rs
lines 262-297. -/
def lib_find_challenge_response_pairs (segments : List TcpSegment) :
    Option (List (TcpSegment × TcpSegment) × List TcpSegment) :=
  libCrLoop (segments.map TcpSegment.create_clone) 0 []

/-- One match recorded by the correlator: the pool at the time of the match,
the outer (challenge) index `i`, and the inner (candidate) index `j`. -/
structure MatchEvent where
  pool : List TcpSegment
  i : Nat
  j : Nat
deriving DecidableEq, Repr

/-- `crLoop` instrumented to also record, for each match, the pool and the
pair of indices involved; identical control flow otherwise. -/
def crLoopT (pool : List TcpSegment) (i : Nat) (matched : List (TcpSegment × TcpSegment))
    (tr : List MatchEvent) :
    Option (List (TcpSegment × TcpSegment) × List TcpSegment × List MatchEvent) :=
  if hi : i < pool.length then
    match innerScan pool (pool.getD i default) with
    | none => crLoopT pool (i + 1) matched tr
    | some j =>
      if hji : j > i then
        if hj2 : j < pool.length then
          if hi2 : i < (pool.eraseIdx j).length then
            crLoopT ((pool.eraseIdx j).eraseIdx i) i
              (matched ++ [(pool.getD i default, pool.getD j default)])
              (tr ++ [⟨pool, i, j⟩])
          else none
        else none
      else
        if hi2 : i < pool.length then
          if hj2 : j < (pool.eraseIdx i).length then
            crLoopT ((pool.eraseIdx i).eraseIdx j) i
              (matched ++ [(pool.getD i default, pool.getD j default)])
              (tr ++ [⟨pool, i, j⟩])
          else none
        else none
  else
    some (matched, pool, tr)
termination_by pool.length - i
decreasing_by
  · omega
  · have e1 : (pool.eraseIdx j).length = pool.length - 1 := by
      rw [List.length_eraseIdx, if_pos hj2]
    have e2 : ((pool.eraseIdx j).eraseIdx i).length = (pool.eraseIdx j).length - 1 := by
      rw [List.length_eraseIdx, if_pos hi2]
    omega
  · have e1 : (pool.eraseIdx i).length = pool.length - 1 := by
      rw [List.length_eraseIdx, if_pos hi2]
    have e2 : ((pool.eraseIdx i).eraseIdx j).length = (pool.eraseIdx i).length - 1 := by
      rw [List.length_eraseIdx, if_pos hj2]
    omega

/-- A recorded match is well-formed for the greedy scan: the candidate index
is in the scanned range 1..=len-1 and is the least scanned index whose
element answers the challenge. -/
def MatchEvent.greedyOk (ev : MatchEvent) : Prop :=
  1 ≤ ev.j ∧ ev.j < ev.pool.length ∧ ev.i < ev.pool.length ∧
    (ev.pool.getD ev.i default).is_answered_by (ev.pool.getD ev.j default) = true ∧
    ∀ k, 1 ≤ k → k < ev.j →
      (ev.pool.getD ev.i default).is_answered_by (ev.pool.getD k default) = false

-- IPv4 packets and the host filter ---------------------------------------

/-- IPv4 packet: the fields of `pnet`'s `Ipv4Packet` that the source reads
(`get_source`, `get_destination`, `payload`); addresses embedded as `Nat`. -/
structure Ipv4Packet where
  source : Nat
  destination : Nat
  payload : List Nat
deriving DecidableEq, Repr

/-- `Ipv4Packet::create_clone`: identity on decoded values. -/
def Ipv4Packet.create_clone (p : Ipv4Packet) : Ipv4Packet := p

/-- `Ipv4PacketCollection::filter_only_host` (src/src/ipv4_packet.rs
lines 54-61): keep packets whose source or destination equals `host`, as
owned clones, preserving order. -/
def filter_only_host (packets : List Ipv4Packet) (host : Nat) : List Ipv4Packet :=
  (packets.filter (fun p => p.source == host || p.destination == host)).map
    Ipv4Packet.create_clone

-- Decode pipeline (src/src/lib.rs lines 484-525) -------------------------

/-- `PacketCapture::<Completed>::results_as_ethernet` (src/src/lib.rs
lines 484-494): each raw frame is kept exactly when the opaque `pnet`
parser accepts it, and is then re-parsed from an owned copy of the same
bytes; `filter` by parse success followed by `map`-unwrap of the same
deterministic parse is `filterMap`. -/
def results_as_ethernet {E : Type} (parse_eth : List Nat → Option E)
    (raw_frames : List (List Nat)) : List E :=
  raw_frames.filterMap parse_eth

/-- `results_as_ipv4` (src/src/lib.rs lines 497-510): parse each surviving
Ethernet frame's payload as IPv4, silently dropping failures. -/
def results_as_ipv4 {E I : Type} (parse_eth : List Nat → Option E)
    (eth_payload : E → List Nat) (parse_ipv4 : List Nat → Option I)
    (raw_frames : List (List Nat)) : List I :=
  (results_as_ethernet parse_eth raw_frames).filterMap (fun e => parse_ipv4 (eth_payload e))

/-- `results_as_tcp` (src/src/lib.rs lines 513-525): parse each surviving
IPv4 packet's payload as TCP, silently dropping failures. -/
def results_as_tcp {E I T : Type} (parse_eth : List Nat → Option E)
    (eth_payload : E → List Nat) (parse_ipv4 : List Nat → Option I)
    (ipv4_payload : I → List Nat) (parse_tcp : List Nat → Option T)
    (raw_frames : List (List Nat)) : List T :=
  (results_as_ipv4 parse_eth eth_payload parse_ipv4 raw_frames).filterMap
    (fun p => parse_tcp (ipv4_payload p))

-- Capture session (src/src/lib.rs lines 340-481) -------------------------

/-- The slice of `pnet`'s `NetworkInterface` the source reads:
`PacketCapture::new` compares only `iface.name`. -/
structure NetworkInterface where
  name : String
deriving DecidableEq, Repr

/-- Marker for PacketCapture (src/src/lib.rs line 341). -/
inductive Uninitialized : Type
  | mk

/-- Marker for PacketCapture (src/src/lib.rs line 343). -/
inductive Initialized : Type
  | mk

/-- Marker for PacketCapture (src/src/lib.rs line 345). -/
inductive Started : Type
  | mk

/-- Marker for PacketCapture (src/src/lib.rs line 347). -/
inductive Completed : Type
  | mk

/-- `PacketCapture<State>` (src/src/lib.rs lines 352-358): the bound
interface, the shared raw-frame buffer (`Arc<Mutex<Vec<Vec<u8>>>>`, here its
contents), the immutable results snapshot, and the shared stop flag
(`Arc<AtomicBool>`, here its value); `State` is phantom, as in the source. -/
structure PacketCapture (State : Type) where
  interface : NetworkInterface
  packets : List (List Nat)
  results : List (List Nat)
  stop_signal : Bool
deriving DecidableEq, Repr

/-- `PacketCapture::<Uninitialized>::new` (src/src/lib.rs lines 365-378):
look the name up in the enumerated interfaces (an opaque external
capability, passed as a parameter), fail recoverably when absent, otherwise
return an Initialized session with an empty buffer, empty results and a
false stop flag. -/
def PacketCapture.new (interfaces : List NetworkInterface) (interface_name : String) :
    Except String (PacketCapture Initialized) :=
  match interfaces.find? (fun iface => iface.name == interface_name) with
  | none => Except.error "Could not find interface"
  | some iface =>
      Except.ok { interface := iface, packets := [], results := [], stop_signal := false }

/-- `PacketCapture::<Initialized>::start_capture` (src/src/lib.rs
lines 386-414): spawns the background receive loop (modelled separately by
`taskAppend`) and returns a Started session over the same shared fields. -/
def start_capture (pc : PacketCapture Initialized) : PacketCapture Started :=
  { interface := pc.interface, packets := pc.packets, results := pc.results,
    stop_signal := pc.stop_signal }

/-- `PacketCapture::<Initialized>::start_live_process` (src/src/lib.rs
lines 419-449): like `start_capture` but frames go to the callback instead
of the buffer; the returned session shares the same fields. -/
def start_live_process (pc : PacketCapture Initialized) (callback : List Nat → Unit) :
    PacketCapture Started :=
  { interface := pc.interface, packets := pc.packets, results := pc.results,
    stop_signal := pc.stop_signal }

/-- One iteration of the background capture task's buffer append
(src/src/lib.rs line 400: `packets.lock().unwrap().push(packet.to_owned())`). -/
def taskAppend {State : Type} (pc : PacketCapture State) (frame : List Nat) :
    PacketCapture State :=
  { interface := pc.interface, packets := pc.packets ++ [frame], results := pc.results,
    stop_signal := pc.stop_signal }

/-- `PacketCapture::<Started>::stop_capture` (src/src/lib.rs lines 457-473):
store `true` into the shared stop flag, then synchronously snapshot the
shared buffer's current contents into `results`; the buffer itself and the
interface are carried over unchanged.  The call never waits on the
background task. -/
def stop_capture (pc : PacketCapture Started) : PacketCapture Completed :=
  { interface := pc.interface, packets := pc.packets, results := pc.packets,
    stop_signal := true }

/-- `PacketCapture::<Completed>::results_raw` (src/src/lib.rs
lines 479-481). -/
def results_raw (pc : PacketCapture Completed) : List (List Nat) :=
  pc.results

-- Lifecycle state machine as data (src/src/lib.rs impl blocks) -----------

/-- The four typestate markers of `PacketCapture`, as an enumeration. -/
inductive SessionState : Type
  | uninitialized
  | initialized
  | started
  | completed
deriving DecidableEq, Repr, Fintype

/-- The public operations of `PacketCapture`, one per method of the four
impl blocks (`new`; `start_capture`; `start_live_process`; `stop_capture`;
the read-only `results_*` family). -/
inductive SessionOp : Type
  | newOp
  | startCaptureOp
  | startLiveProcessOp
  | stopCaptureOp
  | resultsOp
deriving DecidableEq, Repr, Fintype

/-- Which operation each typestate admits: the transcription of the four
impl blocks (src/src/lib.rs lines 361, 382, 453, 477) — each method exists
only on the state its impl block names. -/
def opAllowed : SessionOp → SessionState → Bool
  | SessionOp.newOp, SessionState.uninitialized => true
  | SessionOp.startCaptureOp, SessionState.initialized => true
  | SessionOp.startLiveProcessOp, SessionState.initialized => true
  | SessionOp.stopCaptureOp, SessionState.started => true
  | SessionOp.resultsOp, SessionState.completed => true
  | _, _ => false

/-- The state each operation returns, per the methods' return types. -/
def opTarget : SessionOp → SessionState
  | SessionOp.newOp => SessionState.initialized
  | SessionOp.startCaptureOp => SessionState.started
  | SessionOp.startLiveProcessOp => SessionState.started
  | SessionOp.stopCaptureOp => SessionState.completed
  | SessionOp.resultsOp => SessionState.completed

/-- Invoking an operation on a session in a given state: a wrong-state call
does not type-check in the source and is `none` here — observably rejected,
not a silent no-op. -/
def opNext (op : SessionOp) (s : SessionState) : Option SessionState :=
  if opAllowed op s then some (opTarget op) else none

/-- Position of each state in the linear lifecycle. -/
def stateRank : SessionState → Nat
  | SessionState.uninitialized => 0
  | SessionState.initialized => 1
  | SessionState.started => 2
  | SessionState.completed => 3

-- General helper lemmas -------------------------------------------------

theorem find?_range'_spec (p : Nat → Bool) :
    ∀ (n s j : Nat), (List.range' s n).find? p = some j →
      s ≤ j ∧ j < s + n ∧ p j = true ∧ ∀ k, s ≤ k → k < j → p k = false := by
  intro n
  induction n with
  | zero => intro s j h; simp at h
  | succ m ih =>
    intro s j h
    rw [List.range'_succ] at h
    by_cases hp : p s
    · rw [List.find?_cons_of_pos _ hp] at h
      cases h
      exact ⟨Nat.le_refl _, by omega, hp,
        fun k hk1 hk2 => absurd (Nat.lt_of_le_of_lt hk1 hk2) (Nat.lt_irrefl _)⟩
    · rw [List.find?_cons_of_neg _ hp] at h
      obtain ⟨hs, hlt, hpj, hmin⟩ := ih (s + 1) j h
      refine ⟨by omega, by omega, hpj, fun k hk1 hk2 => ?_⟩
      rcases Nat.eq_or_lt_of_le hk1 with rfl | hk
      · exact Bool.eq_false_iff.mpr hp
      · exact hmin k hk hk2

theorem innerScan_some {pool : List TcpSegment} {c : TcpSegment} {j : Nat}
    (h : innerScan pool c = some j) :
    1 ≤ j ∧ j < pool.length ∧ c.is_answered_by (pool.getD j default) = true ∧
      ∀ k, 1 ≤ k → k < j → c.is_answered_by (pool.getD k default) = false := by
  obtain ⟨h1, h2, h3, h4⟩ := find?_range'_spec _ _ _ _ h
  exact ⟨h1, by omega, h3, h4⟩

theorem multiset_getD_cons_eraseIdx {α : Type} (d : α) :
    ∀ (l : List α) (k : Nat), k < l.length →
      (↑l : Multiset α) = l.getD k d ::ₘ ↑(l.eraseIdx k) := by
  intro l
  induction l with
  | nil => intro k hk; simp at hk
  | cons a t ih =>
    intro k hk
    cases k with
    | zero => simp [List.eraseIdx]
    | succ m =>
      have hm : m < t.length := by simpa using hk
      have := ih m hm
      simp only [List.eraseIdx, List.getD_cons_succ, ← Multiset.cons_coe]
      rw [this]
      exact (Multiset.cons_swap _ _ _).symm

theorem getD_eraseIdx_of_lt {α : Type} (l : List α) (k m : Nat) (d : α)
    (hk : k < l.length) (hm : m < k) : (l.eraseIdx k).getD m d = l.getD m d := by
  have hlen : (l.eraseIdx k).length = l.length - 1 := by
    rw [List.length_eraseIdx, if_pos hk]
  have hm1 : m < (l.eraseIdx k).length := by omega
  have hm2 : m < l.length := by omega
  rw [List.getD_eq_getElem _ _ hm1, List.getD_eq_getElem _ _ hm2, List.getElem_eraseIdx]
  rw [dif_pos hm]

theorem getD_mem {α : Type} (l : List α) (k : Nat) (d : α) (hk : k < l.length) :
    l.getD k d ∈ l := by
  rw [List.getD_eq_getElem _ _ hk]
  exact List.getElem_mem hk

theorem map_create_clone (segments : List TcpSegment) :
    segments.map TcpSegment.create_clone = segments := by
  rw [show TcpSegment.create_clone = id from rfl, List.map_id]

-- Correlator invariants --------------------------------------------------

theorem crLoop_partition :
    ∀ (pool : List TcpSegment) (i : Nat) (matched : List (TcpSegment × TcpSegment)),
      (∀ s ∈ pool, s.is_answered_by s = false) →
      ∃ m u, crLoop pool i matched = some (m, u) ∧
        m.length * 2 + u.length = matched.length * 2 + pool.length ∧
        (↑(m.map Prod.fst) + ↑(m.map Prod.snd) + ↑u : Multiset TcpSegment) =
          ↑(matched.map Prod.fst) + ↑(matched.map Prod.snd) + ↑pool := by
  intro pool i matched
  induction pool, i, matched using crLoop.induct with
  | case1 pool i matched hi hscan ih =>
    intro h
    obtain ⟨m, u, heq, hlen, hms⟩ := ih h
    refine ⟨m, u, ?_, hlen, hms⟩
    rw [crLoop.eq_def]
    simp only [dif_pos hi, hscan]
    exact heq
  | case2 pool i matched hi j hscan hji hj2 hi2 ih =>
    intro h
    obtain ⟨hj1, hjlen, hans, hmin⟩ := innerScan_some hscan
    have e1 : (pool.eraseIdx j).length = pool.length - 1 := by
      rw [List.length_eraseIdx, if_pos hj2]
    have hsub : ∀ s ∈ (pool.eraseIdx j).eraseIdx i, s ∈ pool := fun s hs =>
      (List.eraseIdx_sublist pool j).subset ((List.eraseIdx_sublist _ i).subset hs)
    obtain ⟨m, u, heq, hlen, hms⟩ := ih (fun s hs => h s (hsub s hs))
    have e2 : ((pool.eraseIdx j).eraseIdx i).length = (pool.eraseIdx j).length - 1 := by
      rw [List.length_eraseIdx, if_pos hi2]
    refine ⟨m, u, ?_, ?_, ?_⟩
    · rw [crLoop.eq_def]
      simp only [dif_pos hi, hscan, dif_pos hji, dif_pos hj2, dif_pos hi2]
      exact heq
    · simp only [List.length_append, List.length_cons, List.length_nil] at hlen
      omega
    · rw [hms]
      have hpool : (↑pool : Multiset TcpSegment) =
          pool.getD j default ::ₘ pool.getD i default ::ₘ ↑((pool.eraseIdx j).eraseIdx i) := by
        rw [multiset_getD_cons_eraseIdx default pool j hj2]
        rw [multiset_getD_cons_eraseIdx default (pool.eraseIdx j) i hi2]
        rw [getD_eraseIdx_of_lt pool j i default hj2 hji]
      rw [hpool]
      simp only [List.map_append, List.map_cons, List.map_nil, ← Multiset.coe_add,
        Multiset.coe_singleton, ← Multiset.singleton_add]
      abel
  | case3 pool i matched hi j hscan hji hj2 hi2 =>
    intro h
    obtain ⟨hj1, hjlen, hans, hmin⟩ := innerScan_some hscan
    have e1 : (pool.eraseIdx j).length = pool.length - 1 := by
      rw [List.length_eraseIdx, if_pos hj2]
    omega
  | case4 pool i matched hi j hscan hji hj2 =>
    intro h
    obtain ⟨hj1, hjlen, hans, hmin⟩ := innerScan_some hscan
    omega
  | case5 pool i matched hi j hscan hji hi2 hj2 ih =>
    intro h
    obtain ⟨hj1, hjlen, hans, hmin⟩ := innerScan_some hscan
    have hne : j ≠ i := by
      intro hji'
      subst hji'
      have hmem : pool.getD j default ∈ pool := getD_mem pool j default hjlen
      have := h _ hmem
      rw [this] at hans
      exact Bool.false_ne_true hans
    have hjlti : j < i := by omega
    have e1 : (pool.eraseIdx i).length = pool.length - 1 := by
      rw [List.length_eraseIdx, if_pos hi2]
    have e2 : ((pool.eraseIdx i).eraseIdx j).length = (pool.eraseIdx i).length - 1 := by
      rw [List.length_eraseIdx, if_pos hj2]
    have hsub : ∀ s ∈ (pool.eraseIdx i).eraseIdx j, s ∈ pool := fun s hs =>
      (List.eraseIdx_sublist pool i).subset ((List.eraseIdx_sublist _ j).subset hs)
    obtain ⟨m, u, heq, hlen, hms⟩ := ih (fun s hs => h s (hsub s hs))
    refine ⟨m, u, ?_, ?_, ?_⟩
    · rw [crLoop.eq_def]
      simp only [dif_pos hi, hscan, dif_neg hji, dif_pos hi2, dif_pos hj2]
      exact heq
    · simp only [List.length_append, List.length_cons, List.length_nil] at hlen
      omega
    · rw [hms]
      have hpool : (↑pool : Multiset TcpSegment) =
          pool.getD i default ::ₘ pool.getD j default ::ₘ ↑((pool.eraseIdx i).eraseIdx j) := by
        rw [multiset_getD_cons_eraseIdx default pool i hi2]
        rw [multiset_getD_cons_eraseIdx default (pool.eraseIdx i) j hj2]
        rw [getD_eraseIdx_of_lt pool i j default hi2 hjlti]
      rw [hpool]
      simp only [List.map_append, List.map_cons, List.map_nil, ← Multiset.coe_add,
        Multiset.coe_singleton, ← Multiset.singleton_add]
      abel
  | case6 pool i matched hi j hscan hji hi2 hj2 =>
    intro h
    obtain ⟨hj1, hjlen, hans, hmin⟩ := innerScan_some hscan
    have hne : j ≠ i := by
      intro hji'
      subst hji'
      have hmem : pool.getD j default ∈ pool := getD_mem pool j default hjlen
      have := h _ hmem
      rw [this] at hans
      exact Bool.false_ne_true hans
    have e1 : (pool.eraseIdx i).length = pool.length - 1 := by
      rw [List.length_eraseIdx, if_pos hi2]
    omega
  | case7 pool i matched hi j hscan hji hi2 =>
    intro h
    omega
  | case8 pool i matched hi =>
    intro h
    refine ⟨matched, pool, ?_, by omega, rfl⟩
    rw [crLoop.eq_def]
    simp only [dif_neg hi]

theorem crLoopT_proj :
    ∀ (pool : List TcpSegment) (i : Nat) (matched : List (TcpSegment × TcpSegment))
      (tr : List MatchEvent),
      Option.map (fun r => (r.1, r.2.1)) (crLoopT pool i matched tr) = crLoop pool i matched := by
  intro pool i matched tr
  induction pool, i, matched, tr using crLoopT.induct with
  | case1 pool i matched tr hi hscan ih =>
    rw [crLoopT.eq_def, crLoop.eq_def]
    simp only [dif_pos hi, hscan]
    exact ih
  | case2 pool i matched tr hi j hscan hji hj2 hi2 ih =>
    rw [crLoopT.eq_def, crLoop.eq_def]
    simp only [dif_pos hi, hscan, dif_pos hji, dif_pos hj2, dif_pos hi2]
    exact ih
  | case3 pool i matched tr hi j hscan hji hj2 hi2 =>
    rw [crLoopT.eq_def, crLoop.eq_def]
    simp only [dif_pos hi, hscan, dif_pos hji, dif_pos hj2, dif_neg hi2]
    rfl
  | case4 pool i matched tr hi j hscan hji hj2 =>
    rw [crLoopT.eq_def, crLoop.eq_def]
    simp only [dif_pos hi, hscan, dif_pos hji, dif_neg hj2]
    rfl
  | case5 pool i matched tr hi j hscan hji hi2 hj2 ih =>
    rw [crLoopT.eq_def, crLoop.eq_def]
    simp only [dif_pos hi, hscan, dif_neg hji, dif_pos hi2, dif_pos hj2]
    exact ih
  | case6 pool i matched tr hi j hscan hji hi2 hj2 =>
    rw [crLoopT.eq_def, crLoop.eq_def]
    simp only [dif_pos hi, hscan, dif_neg hji, dif_pos hi2, dif_neg hj2]
    rfl
  | case7 pool i matched tr hi j hscan hji hi2 =>
    exact absurd hi hi2
  | case8 pool i matched tr hi =>
    rw [crLoopT.eq_def, crLoop.eq_def]
    simp only [dif_neg hi]
    rfl

theorem crLoopT_trace :
    ∀ (pool : List TcpSegment) (i : Nat) (matched : List (TcpSegment × TcpSegment))
      (tr : List MatchEvent),
      (∀ ev ∈ tr, ev.greedyOk) →
      ∀ m u tr', crLoopT pool i matched tr = some (m, u, tr') →
        ∀ ev ∈ tr', ev.greedyOk := by
  intro pool i matched tr
  induction pool, i, matched, tr using crLoopT.induct with
  | case1 pool i matched tr hi hscan ih =>
    intro hok m u tr' heq
    rw [crLoopT.eq_def] at heq
    simp only [dif_pos hi, hscan] at heq
    exact ih hok m u tr' heq
  | case2 pool i matched tr hi j hscan hji hj2 hi2 ih =>
    intro hok m u tr' heq
    rw [crLoopT.eq_def] at heq
    simp only [dif_pos hi, hscan, dif_pos hji, dif_pos hj2, dif_pos hi2] at heq
    obtain ⟨hj1, hjlen, hans, hmin⟩ := innerScan_some hscan
    refine ih ?_ m u tr' heq
    intro ev hev
    rcases List.mem_append.mp hev with hev | hev
    · exact hok ev hev
    · rcases List.mem_singleton.mp hev with rfl
      exact ⟨hj1, hjlen, hi, hans, hmin⟩
  | case3 pool i matched tr hi j hscan hji hj2 hi2 =>
    intro hok m u tr' heq
    rw [crLoopT.eq_def] at heq
    simp only [dif_pos hi, hscan, dif_pos hji, dif_pos hj2, dif_neg hi2] at heq
    exact Option.noConfusion heq
  | case4 pool i matched tr hi j hscan hji hj2 =>
    intro hok m u tr' heq
    rw [crLoopT.eq_def] at heq
    simp only [dif_pos hi, hscan, dif_pos hji, dif_neg hj2] at heq
    exact Option.noConfusion heq
  | case5 pool i matched tr hi j hscan hji hi2 hj2 ih =>
    intro hok m u tr' heq
    rw [crLoopT.eq_def] at heq
    simp only [dif_pos hi, hscan, dif_neg hji, dif_pos hi2, dif_pos hj2] at heq
    obtain ⟨hj1, hjlen, hans, hmin⟩ := innerScan_some hscan
    refine ih ?_ m u tr' heq
    intro ev hev
    rcases List.mem_append.mp hev with hev | hev
    · exact hok ev hev
    · rcases List.mem_singleton.mp hev with rfl
      exact ⟨hj1, hjlen, hi, hans, hmin⟩
  | case6 pool i matched tr hi j hscan hji hi2 hj2 =>
    intro hok m u tr' heq
    rw [crLoopT.eq_def] at heq
    simp only [dif_pos hi, hscan, dif_neg hji, dif_pos hi2, dif_neg hj2] at heq
    exact Option.noConfusion heq
  | case7 pool i matched tr hi j hscan hji hi2 =>
    exact absurd hi hi2
  | case8 pool i matched tr hi =>
    intro hok m u tr' heq
    rw [crLoopT.eq_def] at heq
    simp only [dif_neg hi, Option.some.injEq, Prod.mk.injEq] at heq
    obtain ⟨-, -, rfl⟩ := heq
    exact hok

-- filterMap as filter-then-unwrap ----------------------------------------

theorem filterMap_eq_filter_map {α β : Type} (f : α → Option β) (d : β) :
    ∀ l : List α,
      l.filterMap f = (l.filter (fun a => (f a).isSome)).map (fun a => (f a).getD d) := by
  intro l
  induction l with
  | nil => simp
  | cons a t ih =>
    cases hfa : f a with
    | none => simp [List.filterMap_cons, hfa, List.filter_cons, ih]
    | some b => simp [List.filterMap_cons, hfa, List.filter_cons, ih]

-- Claim theorems ----------------------------------------------------------

set_option maxRecDepth 8000 in
/-- C1 (amended): for every input sequence S containing no self-answering
segment, `find_challenge_response_pairs` returns (matched, unmatched) with
|matched| * 2 + |unmatched| = |S|, and the multiset of segments across the
matched pairs together with the unmatched segments equals the multiset of S.
The no-self-answering hypothesis is forced by the counterexample: a
self-answering segment can be paired with itself while two different pool
elements are removed, breaking the multiset law (or panicking). -/
theorem find_challenge_response_pairs_partition (S : List TcpSegment)
    (h : ∀ s ∈ S, s.is_answered_by s = false) :
    ∃ m u, find_challenge_response_pairs S = some (m, u) ∧
      m.length * 2 + u.length = S.length ∧
      (↑(m.map Prod.fst) + ↑(m.map Prod.snd) + ↑u : Multiset TcpSegment) = ↑S := by
  obtain ⟨m, u, heq, hlen, hms⟩ := crLoop_partition S 0 [] h
  refine ⟨m, u, ?_, by simpa using hlen, by simpa using hms⟩
  rw [find_challenge_response_pairs, map_create_clone]
  exact heq

/-- C1 witness: the partition law at the spec's concrete scenario
(challenge seq=100 with a 10-byte payload, response ack=110). -/
theorem find_challenge_response_pairs_partition_witness :
    ∃ m u,
      find_challenge_response_pairs
          [⟨80, 9000, 100, 0, [0, 0, 0, 0, 0, 0, 0, 0, 0, 0]⟩, ⟨9000, 80, 0, 110, []⟩] =
        some (m, u) ∧
      m.length * 2 + u.length =
        ([⟨80, 9000, 100, 0, [0, 0, 0, 0, 0, 0, 0, 0, 0, 0]⟩,
          ⟨9000, 80, 0, 110, []⟩] : List TcpSegment).length ∧
      (↑(m.map Prod.fst) + ↑(m.map Prod.snd) + ↑u : Multiset TcpSegment) =
        ↑([⟨80, 9000, 100, 0, [0, 0, 0, 0, 0, 0, 0, 0, 0, 0]⟩,
          ⟨9000, 80, 0, 110, []⟩] : List TcpSegment) :=
  find_challenge_response_pairs_partition
    [⟨80, 9000, 100, 0, [0, 0, 0, 0, 0, 0, 0, 0, 0, 0]⟩, ⟨9000, 80, 0, 110, []⟩] (by decide)

/-- C1 counterexample: on input [B, A, C] where A = (80,80,seq 0,ack 0,[])
answers itself, the function returns matched = [(A, A)] and unmatched = [B]:
the length law holds but C has vanished and A is duplicated, so the outputs
are not a partition of the input (C appears once in the input and zero times
across the outputs). -/
theorem find_challenge_response_pairs_partition_counterexample :
    find_challenge_response_pairs [⟨1, 2, 0, 5, []⟩, ⟨80, 80, 0, 0, []⟩, ⟨9, 9, 5, 7, []⟩] =
      some ([(⟨80, 80, 0, 0, []⟩, ⟨80, 80, 0, 0, []⟩)], [⟨1, 2, 0, 5, []⟩]) ∧
    List.count (⟨9, 9, 5, 7, []⟩ : TcpSegment)
        (([(⟨80, 80, 0, 0, []⟩, ⟨80, 80, 0, 0, []⟩)] :
            List (TcpSegment × TcpSegment)).map Prod.fst ++
          ([(⟨80, 80, 0, 0, []⟩, ⟨80, 80, 0, 0, []⟩)] :
            List (TcpSegment × TcpSegment)).map Prod.snd ++
          [⟨1, 2, 0, 5, []⟩]) = 0 ∧
    List.count (⟨9, 9, 5, 7, []⟩ : TcpSegment)
        [⟨1, 2, 0, 5, []⟩, ⟨80, 80, 0, 0, []⟩, ⟨9, 9, 5, 7, []⟩] = 1 := by
  refine ⟨?_, by decide, by decide⟩
  rw [find_challenge_response_pairs, map_create_clone]
  simp [crLoop, innerScan, TcpSegment.is_answered_by, List.range']

set_option maxRecDepth 8000 in
/-- C2: `is_answered_by` holds exactly when the ports are crossed and the
challenge's sequence number plus its payload length equals the candidate's
acknowledgment number, with exact (non-wrapping) arithmetic; at the u32
boundary (seq = 2^32 - 1, 2-byte payload) a wrapped acknowledgment of 1 does
NOT match, confirming the absence of any modulo-2^32 correction. -/
theorem is_answered_by_spec :
    ∀ a b : TcpSegment,
      (a.is_answered_by b = true ↔
        (a.source = b.destination ∧ a.destination = b.source ∧
          a.sequence + a.payload.length = b.acknowledgement)) ∧
      TcpSegment.is_answered_by ⟨80, 90, 4294967295, 0, [0, 0]⟩ ⟨90, 80, 0, 1, []⟩ = false := by
  intro a b
  refine ⟨?_, by decide⟩
  simp [TcpSegment.is_answered_by, and_assoc]

/-- C3 (amended): the instrumented loop `crLoopT` projects onto the real
`find_challenge_response_pairs`, and every recorded match takes the eligible
candidate with the lowest pool index in the scanned range 1..=len-1 — the
lowest nonzero index, not the lowest index strictly after the challenge's
index i: the candidate's index may be at or before i (even equal to it). -/
theorem find_challenge_response_pairs_greedy_scan :
    ∀ S : List TcpSegment,
      Option.map (fun r => (r.1, r.2.1)) (crLoopT (S.map TcpSegment.create_clone) 0 [] []) =
        find_challenge_response_pairs S ∧
      (∀ m u tr, crLoopT (S.map TcpSegment.create_clone) 0 [] [] = some (m, u, tr) →
        ∀ ev ∈ tr, ev.greedyOk) := by
  intro S
  constructor
  · rw [find_challenge_response_pairs]
    exact crLoopT_proj _ 0 [] []
  · intro m u tr heq
    exact crLoopT_trace _ 0 [] []
      (fun ev hev => absurd hev (List.not_mem_nil ev)) m u tr heq

/-- C3 counterexample: on input [D, Y, X] where only X (at index 2) is
answered by Y (at index 1), the single recorded match event pairs challenge
index 2 with candidate index 1 — an index strictly before the challenge's
own — and the returned pair is (X, Y). -/
theorem find_challenge_response_pairs_greedy_scan_counterexample :
    find_challenge_response_pairs
        [⟨1, 2, 10, 99, []⟩, ⟨5, 6, 0, 50, [0]⟩,
          ⟨6, 5, 40, 0, [0, 0, 0, 0, 0, 0, 0, 0, 0, 0]⟩] =
      some ([(⟨6, 5, 40, 0, [0, 0, 0, 0, 0, 0, 0, 0, 0, 0]⟩, ⟨5, 6, 0, 50, [0]⟩)],
        [⟨1, 2, 10, 99, []⟩]) ∧
    crLoopT
        [⟨1, 2, 10, 99, []⟩, ⟨5, 6, 0, 50, [0]⟩,
          ⟨6, 5, 40, 0, [0, 0, 0, 0, 0, 0, 0, 0, 0, 0]⟩] 0 [] [] =
      some ([(⟨6, 5, 40, 0, [0, 0, 0, 0, 0, 0, 0, 0, 0, 0]⟩, ⟨5, 6, 0, 50, [0]⟩)],
        [⟨1, 2, 10, 99, []⟩],
        [⟨[⟨1, 2, 10, 99, []⟩, ⟨5, 6, 0, 50, [0]⟩,
            ⟨6, 5, 40, 0, [0, 0, 0, 0, 0, 0, 0, 0, 0, 0]⟩], 2, 1⟩]) ∧
    (⟨[⟨1, 2, 10, 99, []⟩, ⟨5, 6, 0, 50, [0]⟩,
        ⟨6, 5, 40, 0, [0, 0, 0, 0, 0, 0, 0, 0, 0, 0]⟩], 2, 1⟩ : MatchEvent).j <
      (⟨[⟨1, 2, 10, 99, []⟩, ⟨5, 6, 0, 50, [0]⟩,
          ⟨6, 5, 40, 0, [0, 0, 0, 0, 0, 0, 0, 0, 0, 0]⟩], 2, 1⟩ : MatchEvent).i := by
  refine ⟨?_, ?_, by decide⟩
  · rw [find_challenge_response_pairs, map_create_clone]
    simp [crLoop, innerScan, TcpSegment.is_answered_by, List.range']
  · simp [crLoopT, innerScan, TcpSegment.is_answered_by, List.range']

set_option maxRecDepth 8000 in
/-- C4: the two correlator snapshots are NOT the same function.  On the
spec's own concrete scenario (one challenge answered by the next segment,
match at outer index 0 and inner index 1), the src/src/lib.rs snapshot
removes index i = 0 first, shifting the vector, and its second
`remove(j = 1)` is out of bounds (the source panics; here `none`), while
the src/src/tcp_packet.rs snapshot returns the pair with no unmatched
leftovers. -/
theorem correlator_snapshots_divergence :
    lib_find_challenge_response_pairs
        [⟨80, 9000, 100, 0, [0, 0, 0, 0, 0, 0, 0, 0, 0, 0]⟩, ⟨9000, 80, 0, 110, []⟩] = none ∧
    find_challenge_response_pairs
        [⟨80, 9000, 100, 0, [0, 0, 0, 0, 0, 0, 0, 0, 0, 0]⟩, ⟨9000, 80, 0, 110, []⟩] =
      some ([(⟨80, 9000, 100, 0, [0, 0, 0, 0, 0, 0, 0, 0, 0, 0]⟩, ⟨9000, 80, 0, 110, []⟩)],
        []) := by
  constructor
  · rw [lib_find_challenge_response_pairs, map_create_clone]
    simp [libCrLoop, innerScan, TcpSegment.is_answered_by, List.range']
  · rw [find_challenge_response_pairs, map_create_clone]
    simp [crLoop, innerScan, TcpSegment.is_answered_by, List.range']

/-- C5: for every raw-frame sequence and every choice of the opaque layer
parsers, each decode stage never increases cardinality
(|tcp| ≤ |ipv4| ≤ |ethernet| ≤ |raw|); each stage is exactly "filter by
parse success, then unwrap the successful parse" — failures are silently
dropped with no error surfaced — and the survivors of each stage form an
order-preserving sublist of that stage's input. -/
theorem decode_pipeline_spec :
    ∀ {E I T : Type} (dE : E) (dI : I) (dT : T)
      (parse_eth : List Nat → Option E) (eth_payload : E → List Nat)
      (parse_ipv4 : List Nat → Option I) (ipv4_payload : I → List Nat)
      (parse_tcp : List Nat → Option T) (raw : List (List Nat)),
      (results_as_tcp parse_eth eth_payload parse_ipv4 ipv4_payload parse_tcp raw).length ≤
          (results_as_ipv4 parse_eth eth_payload parse_ipv4 raw).length ∧
      (results_as_ipv4 parse_eth eth_payload parse_ipv4 raw).length ≤
          (results_as_ethernet parse_eth raw).length ∧
      (results_as_ethernet parse_eth raw).length ≤ raw.length ∧
      results_as_ethernet parse_eth raw =
          (raw.filter (fun v => (parse_eth v).isSome)).map (fun v => (parse_eth v).getD dE) ∧
      List.Sublist (raw.filter (fun v => (parse_eth v).isSome)) raw ∧
      results_as_ipv4 parse_eth eth_payload parse_ipv4 raw =
          ((results_as_ethernet parse_eth raw).filter
              (fun e => (parse_ipv4 (eth_payload e)).isSome)).map
            (fun e => (parse_ipv4 (eth_payload e)).getD dI) ∧
      List.Sublist
          ((results_as_ethernet parse_eth raw).filter
            (fun e => (parse_ipv4 (eth_payload e)).isSome))
          (results_as_ethernet parse_eth raw) ∧
      results_as_tcp parse_eth eth_payload parse_ipv4 ipv4_payload parse_tcp raw =
          ((results_as_ipv4 parse_eth eth_payload parse_ipv4 raw).filter
              (fun p => (parse_tcp (ipv4_payload p)).isSome)).map
            (fun p => (parse_tcp (ipv4_payload p)).getD dT) ∧
      List.Sublist
          ((results_as_ipv4 parse_eth eth_payload parse_ipv4 raw).filter
            (fun p => (parse_tcp (ipv4_payload p)).isSome))
          (results_as_ipv4 parse_eth eth_payload parse_ipv4 raw) := by
  intro E I T dE dI dT parse_eth eth_payload parse_ipv4 ipv4_payload parse_tcp raw
  refine ⟨List.length_filterMap_le _ _, List.length_filterMap_le _ _,
    List.length_filterMap_le _ _, filterMap_eq_filter_map _ dE _, List.filter_sublist _,
    filterMap_eq_filter_map _ dI _, List.filter_sublist _,
    filterMap_eq_filter_map _ dT _, List.filter_sublist _⟩

/-- C6: `stop_capture` sets the stop flag to true and returns a Completed
session whose `results_raw` is the synchronous snapshot of the shared buffer
at the moment of the call; the buffer contents and the bound interface are
unchanged; a frame the background task appends after the call changes the
shared buffer but not the returned snapshot, while a frame appended before
the call is included. -/
theorem stop_capture_spec :
    ∀ (pc : PacketCapture Started) (frame : List Nat),
      (stop_capture pc).stop_signal = true ∧
      results_raw (stop_capture pc) = pc.packets ∧
      (stop_capture pc).packets = pc.packets ∧
      (stop_capture pc).interface = pc.interface ∧
      results_raw (taskAppend (stop_capture pc) frame) = pc.packets ∧
      (taskAppend (stop_capture pc) frame).packets = pc.packets ++ [frame] ∧
      results_raw (stop_capture (taskAppend pc frame)) = pc.packets ++ [frame] :=
  fun pc frame => ⟨rfl, rfl, rfl, rfl, rfl, rfl, rfl⟩

/-- C7: the lifecycle is strictly linear.  Each operation is admitted in
exactly one state (`stop_capture` only on Started, `start_capture` and
`start_live_process` only on Initialized, the results family only on
Completed, `new` only on Uninitialized); a wrong-state invocation is `none`
(in the source it does not type-check), never a silent no-op; every admitted
transition either advances the rank by exactly one or is the read-only
results operation on Completed, so there is no transition out of
Completed. -/
theorem session_lifecycle_spec :
    ∀ (s : SessionState) (op : SessionOp),
      ((opNext SessionOp.stopCaptureOp s).isSome = (s == SessionState.started)) ∧
      ((opNext SessionOp.startCaptureOp s).isSome = (s == SessionState.initialized)) ∧
      ((opNext SessionOp.startLiveProcessOp s).isSome = (s == SessionState.initialized)) ∧
      ((opNext SessionOp.resultsOp s).isSome = (s == SessionState.completed)) ∧
      ((opNext SessionOp.newOp s).isSome = (s == SessionState.uninitialized)) ∧
      ((opNext op SessionState.completed).isSome = (op == SessionOp.resultsOp)) ∧
      (opNext SessionOp.newOp SessionState.uninitialized = some SessionState.initialized) ∧
      (opNext SessionOp.startCaptureOp SessionState.initialized =
        some SessionState.started) ∧
      (opNext SessionOp.startLiveProcessOp SessionState.initialized =
        some SessionState.started) ∧
      (opNext SessionOp.stopCaptureOp SessionState.started = some SessionState.completed) ∧
      (opNext SessionOp.resultsOp SessionState.completed = some SessionState.completed) ∧
      ((opNext op s).getD s = s ∨ stateRank ((opNext op s).getD s) = stateRank s + 1) := by
  decide

/-- C8: `filter_only_host` returns, in input order, exactly the packets
whose source or destination address equals the host (it equals the plain
filter by that predicate, and is an order-preserving sublist whose every
element satisfies the predicate), and applying it twice with the same host
equals applying it once. -/
theorem filter_only_host_spec :
    ∀ (packets : List Ipv4Packet) (host : Nat),
      filter_only_host packets host =
          packets.filter (fun p => p.source == host || p.destination == host) ∧
      filter_only_host (filter_only_host packets host) host =
          filter_only_host packets host ∧
      List.Sublist (filter_only_host packets host) packets ∧
      (filter_only_host packets host).all
          (fun p => p.source == host || p.destination == host) = true := by
  intro packets host
  have hmap : ∀ l : List Ipv4Packet, l.map Ipv4Packet.create_clone = l := by
    intro l
    rw [show Ipv4Packet.create_clone = id from rfl, List.map_id]
  have h1 : ∀ l : List Ipv4Packet, filter_only_host l host =
      l.filter (fun p => p.source == host || p.destination == host) := by
    intro l
    rw [filter_only_host, hmap]
  refine ⟨h1 packets, ?_, ?_, ?_⟩
  · rw [h1, h1]
    simp [List.filter_filter]
  · rw [h1]
    exact List.filter_sublist _
  · rw [h1, List.all_eq_true]
    intro p hp
    exact (List.mem_filter.mp hp).2

/-- C9: the payload filter (`filter_no_payload` in the code) is idempotent,
every segment it returns has a non-empty TCP payload, and its output is an
order-preserving sublist of its input. -/
theorem filter_no_payload_spec :
    ∀ segments : List TcpSegment,
      filter_no_payload (filter_no_payload segments) = filter_no_payload segments ∧
      (filter_no_payload segments).all (fun s => decide (0 < s.payload.length)) = true ∧
      List.Sublist (filter_no_payload segments) segments := by
  intro segments
  have h1 : ∀ l : List TcpSegment, filter_no_payload l = l.filter TcpSegment.has_payload := by
    intro l
    rw [filter_no_payload, map_create_clone]
  refine ⟨?_, ?_, ?_⟩
  · rw [h1, h1]
    simp [List.filter_filter]
  · rw [h1, List.all_eq_true]
    intro s hs
    have hp := (List.mem_filter.mp hs).2
    rw [TcpSegment.has_payload, Bool.not_eq_true'] at hp
    cases hpl : s.payload with
    | nil => rw [hpl] at hp; simp at hp
    | cons a t => simp [hpl]
  · rw [h1]
    exact List.filter_sublist _

/-- C10: `PacketCapture::new` with an interface name returns an Initialized
session (with empty buffer, empty results and false stop flag, bound to an
enumerated interface of exactly that name) when such an interface exists,
and the recoverable error "Could not find interface" when none does; being a
pure function of the enumeration, it mutates nothing and cannot panic. -/
theorem packet_capture_new_spec :
    ∀ (interfaces : List NetworkInterface) (interface_name : String),
      ((∃ iface ∈ interfaces, iface.name = interface_name) →
        ∃ iface ∈ interfaces, iface.name = interface_name ∧
          PacketCapture.new interfaces interface_name =
            Except.ok
              { interface := iface, packets := [], results := [], stop_signal := false }) ∧
      ((∀ iface ∈ interfaces, iface.name ≠ interface_name) →
        PacketCapture.new interfaces interface_name =
          Except.error "Could not find interface") ∧
      (∀ pc, PacketCapture.new interfaces interface_name = Except.ok pc →
        pc.packets = [] ∧ pc.results = [] ∧ pc.stop_signal = false) := by
  intro interfaces interface_name
  refine ⟨?_, ?_, ?_⟩
  · rintro ⟨iface, hmem, hname⟩
    cases hf : interfaces.find? (fun i => i.name == interface_name) with
    | none =>
      exfalso
      rw [List.find?_eq_none] at hf
      exact hf iface hmem (by simp [hname])
    | some found =>
      have hpj := List.find?_some hf
      have hmemj : found ∈ interfaces := List.mem_of_find?_eq_some hf
      refine ⟨found, hmemj, by simpa using hpj, ?_⟩
      rw [PacketCapture.new, hf]
  · intro hall
    have hf : interfaces.find? (fun i => i.name == interface_name) = none := by
      rw [List.find?_eq_none]
      intro i hi
      simp [hall i hi]
    rw [PacketCapture.new, hf]
  · intro pc hok
    rw [PacketCapture.new] at hok
    cases hf : interfaces.find? (fun i => i.name == interface_name) with
    | none =>
      rw [hf] at hok
      exact Except.noConfusion hok
    | some found =>
      rw [hf] at hok
      cases hok
      exact ⟨rfl, rfl, rfl⟩
